import Mathlib

/-
Verification of the resilience and accounting layer of the repository.

Shallow embedding of src/src/error_handling.py and src/src/cost_tracker.py:
Python floats are modelled as exact rationals; wall-clock instants are
rationals supplied as explicit parameters; time.sleep is modelled by
recording the slept delay; exceptions are modelled as values (for the retry
code, by the lowercase-matched message string; for the circuit breaker, by
a flag saying whether the exception matches the configured
expected_exception class); logging has no observable effect and is dropped.
-/

/- String helpers: Python lowercasing and substring membership
(the `x in s` operator), used by the retry code and the pricing lookup. -/

/-- Python str.lower, for the ASCII strings the code compares. -/
def strLower (s : String) : String :=
  String.mk (s.data.map Char.toLower)

/-- listLE n h: the list n is an initial segment of h. -/
def listLE : List Char → List Char → Bool
  | [], _ => true
  | _ :: _, [] => false
  | a :: as, b :: bs => a = b && listLE as bs

/-- listSub n h: the list n occurs contiguously inside h. -/
def listSub : List Char → List Char → Bool
  | n, [] => listLE n []
  | n, b :: bs => listLE n (b :: bs) || listSub n bs

/-- Python membership test needle in hay on strings. -/
def strContains (hay needle : String) : Bool :=
  listSub needle.data hay.data

/-- The non-retryable classification of retry_with_exponential_backoff
(src/src/error_handling.py line 77): any of the four markers occurs in the
lowercased text of the exception. -/
def nonRetryableMsg (msg : String) : Bool :=
  ["invalid api key", "401", "403", "404"].any
    (fun x => strContains (strLower msg) x)

/- Retry executor (GeminiErrorHandler.retry_with_exponential_backoff).
The wrapped operation is modelled as a function from the attempt index to
its outcome on that attempt: Except.ok a success value or Except.error the
message of the raised exception. -/

/-- Observable trace of one execution of the retry wrapper: the final
result (returned value or propagated exception message), the list of delays
passed to time.sleep in order, and how many times the operation ran. -/
structure RetryTrace (α : Type) where
  result : Except String α
  delays : List ℚ
  calls : ℕ

/-- The backoff delay of line 83: min(base_delay * exponential_base ** attempt, max_delay). -/
def backoffDelay (base_delay exponential_base max_delay : ℚ) (attempt : ℕ) : ℚ :=
  min (base_delay * exponential_base ^ attempt) max_delay

/-- The retry loop of the wrapper, from a given attempt index with a given
number of attempts still allowed after this one. jf is the oracle for the
random jitter factor 0.5 + random.random() of attempt i. -/
def retryGo (op : ℕ → Except String α) (base_delay max_delay exponential_base : ℚ)
    (jitter : Bool) (jf : ℕ → ℚ) : ℕ → ℕ → RetryTrace α
  | attempt, remaining =>
    match op attempt with
    | Except.ok v => ⟨Except.ok v, [], 1⟩
    | Except.error m =>
      if nonRetryableMsg m then ⟨Except.error m, [], 1⟩
      else
        match remaining with
        | 0 => ⟨Except.error m, [], 1⟩
        | r + 1 =>
          let d0 := backoffDelay base_delay exponential_base max_delay attempt
          let d := if jitter then d0 * jf attempt else d0
          let rest := retryGo op base_delay max_delay exponential_base jitter jf (attempt + 1) r
          ⟨rest.result, d :: rest.delays, rest.calls + 1⟩

/-- GeminiErrorHandler.retry_with_exponential_backoff: run the wrapper.
Total attempts = max_retries + 1; attempt numbering starts at 0. -/
def retry_with_exponential_backoff (op : ℕ → Except String α) (max_retries : ℕ)
    (base_delay max_delay exponential_base : ℚ) (jitter : Bool) (jf : ℕ → ℚ) :
    RetryTrace α :=
  retryGo op base_delay max_delay exponential_base jitter jf 0 max_retries

/- GeminiErrorHandler.safe_generate: run the generation function once and
return the (response, error) pair; None is Option.none. The line
if fallback_response: is Python truthiness on an Optional[str]. -/

/-- safe_generate (src/src/error_handling.py lines 101-129). -/
def safe_generate (generate_func : Except String String)
    (fallback_response : Option String) : Option String × Option String :=
  match generate_func with
  | Except.ok response => (some response, none)
  | Except.error e =>
    match fallback_response with
    | some fb => if fb = "" then (none, some e) else (some fb, some e)
    | none => (none, some e)

/- GeminiErrorHandler.handle_safety_block. The duck-typed response is
modelled as an explicit optional-field record: hasattr(x, f) is Option.isSome,
getattr(x, f, default) is Option.getD. -/

/-- One element of response.candidates. finish_reason is a string when
present; safety_ratings models getattr(candidate, safety_ratings, []),
each rating rendered by its display text. -/
structure Candidate where
  finish_reason : Option String
  safety_ratings : Option (List String)
deriving DecidableEq

/-- response.prompt_feedback, whose block_reason field may be absent. -/
structure PromptFeedback where
  block_reason : Option String
deriving DecidableEq

/-- The response shape probed by handle_safety_block. -/
structure GResponse where
  prompt_feedback : Option PromptFeedback
  candidates : Option (List Candidate)
deriving DecidableEq

/-- Python repr of a list: comma-separated elements between brackets. -/
def joinComma : List String → String
  | [] => ""
  | [s] => s
  | s :: r :: rest => s ++ ", " ++ joinComma (r :: rest)

/-- The f-string rendering of the safety_ratings list. -/
def reprRatings (rs : List String) : String :=
  "[" ++ joinComma rs ++ "]"

/-- handle_safety_block (src/src/error_handling.py lines 131-161). The
function body never raises, so the enclosing try/except is inert. -/
def handle_safety_block (response : GResponse) : Bool × Option String :=
  match response.prompt_feedback.bind PromptFeedback.block_reason with
  | some br => (true, some ("Blocked: " ++ br))
  | none =>
    match response.candidates with
    | some (candidate :: _) =>
      match candidate.finish_reason with
      | some fr =>
        if fr = "SAFETY" ∨ fr = "BLOCKED" then
          (true, some ("Content blocked. Safety ratings: "
            ++ reprRatings (candidate.safety_ratings.getD [])))
        else (false, none)
      | none => (false, none)
    | _ => (false, none)

/- Circuit breaker (GeminiErrorHandler.create_circuit_breaker). The state
of the inner CircuitBreaker class; state is the literal Python string. -/

/-- Mutable state of one CircuitBreaker instance. -/
structure CircuitBreaker where
  failure_count : ℕ
  last_failure_time : Option ℚ
  state : String
deriving DecidableEq

/-- The state a fresh breaker is constructed with. -/
def CircuitBreaker.init : CircuitBreaker :=
  ⟨0, none, "CLOSED"⟩

/-- Outcome of invoking the wrapped function once: a success value, or an
exception which either matches the configured expected_exception class
(err true) or does not (err false). -/
inductive Outcome (α : Type) where
  | ok (a : α)
  | err (matches_expected : Bool)
deriving DecidableEq

/-- What one call of the wrapper does: return the inner result, raise the
synthetic circuit-open exception, or propagate the inner exception. -/
inductive CallResult (α : Type) where
  | success (a : α)
  | circuitOpenError
  | propagated (matches_expected : Bool)
deriving DecidableEq

/-- The try block of the wrapper (lines 199-224), run once the open-state
check has passed; also returns whether the inner function was invoked
(always true on this path). -/
def CircuitBreaker.runInner (failure_threshold : ℕ) (now : ℚ) (inner : Outcome α)
    (s : CircuitBreaker) : CircuitBreaker × CallResult α × Bool :=
  match inner with
  | Outcome.ok a =>
    let s2 := if s.state = "HALF_OPEN" then { s with state := "CLOSED" } else s
    ({ s2 with failure_count := 0 }, CallResult.success a, true)
  | Outcome.err true =>
    let c := s.failure_count + 1
    let s2 := { s with failure_count := c, last_failure_time := some now }
    let s3 := if failure_threshold ≤ c then { s2 with state := "OPEN" } else s2
    (s3, CallResult.propagated true, true)
  | Outcome.err false => (s, CallResult.propagated false, true)

/-- One call of the wrapper produced by breaker.call (lines 186-226): the
lazy open-state check with the strict time comparison of line 190, then the
guarded invocation. Returns (new state, observed result, inner invoked). -/
def CircuitBreaker.call (failure_threshold : ℕ) (timeout : ℚ) (now : ℚ)
    (inner : Outcome α) (s : CircuitBreaker) : CircuitBreaker × CallResult α × Bool :=
  if s.state = "OPEN" then
    if now - s.last_failure_time.getD 0 > timeout then
      CircuitBreaker.runInner failure_threshold now inner { s with state := "HALF_OPEN" }
    else
      (s, CallResult.circuitOpenError, false)
  else
    CircuitBreaker.runInner failure_threshold now inner s

/-- Fold a sequence of calls (each an instant paired with the outcome the
inner function would produce) through one breaker instance. -/
def CircuitBreaker.run (failure_threshold : ℕ) (timeout : ℚ)
    (events : List (ℚ × Outcome Unit)) (s : CircuitBreaker) : CircuitBreaker :=
  events.foldl (fun st ev => (CircuitBreaker.call failure_threshold timeout ev.1 ev.2 st).1) s

/-- The breaker states reachable from construction through any sequence of
wrapped calls. Success values carry no information for the state, so Unit
suffices as the result type. -/
inductive Reachable (failure_threshold : ℕ) (timeout : ℚ) : CircuitBreaker → Prop where
  | init : Reachable failure_threshold timeout CircuitBreaker.init
  | step (s : CircuitBreaker) (now : ℚ) (inner : Outcome Unit) :
      Reachable failure_threshold timeout s →
      Reachable failure_threshold timeout
        (CircuitBreaker.call failure_threshold timeout now inner s).1

/- Cost tracker (src/src/cost_tracker.py). Python ints are ℤ (negative
inputs are representable), money amounts are exact ℚ. The timestamp field
of TokenUsage is not modelled: no tracked behaviour reads it. -/

/-- TokenUsage dataclass (src/src/cost_tracker.py lines 22-29). -/
structure TokenUsage where
  prompt_tokens : ℤ
  completion_tokens : ℤ
  total_tokens : ℤ
  model : String
deriving DecidableEq

/-- The pricing dict of cost_estimate, in its insertion (iteration) order:
model key, rate per 1K input tokens, rate per 1K output tokens. -/
def pricing : List (String × ℚ × ℚ) :=
  [("gemini-2.5-flash", 0.00001875, 0.000075),
   ("gemini-2.5-pro", 0.000125, 0.000625),
   ("gemini-2.0-flash", 0.00001875, 0.000075),
   ("gemini-pro", 0.0005, 0.0015)]

/-- TokenUsage.cost_estimate (lines 31-72): first pricing key occurring as
a substring of the lowercased model name wins; no match falls back to the
gemini-pro entry. -/
def cost_estimate (u : TokenUsage) : ℚ :=
  let rates :=
    match pricing.find? (fun kv => strContains (strLower u.model) kv.1) with
    | some kv => kv.2
    | none => (0.0005, 0.0015)
  (u.prompt_tokens : ℚ) / 1000 * rates.1 + (u.completion_tokens : ℚ) / 1000 * rates.2

/-- State of a CostTracker instance (lines 78-82). -/
structure CostTracker where
  usage_history : List TokenUsage
  total_prompt_tokens : ℤ
  total_completion_tokens : ℤ
  total_cost : ℚ
deriving DecidableEq

/-- A freshly constructed CostTracker. -/
def CostTracker.init : CostTracker :=
  ⟨[], 0, 0, 0⟩

/-- CostTracker.add_usage (lines 84-113): build the record with the inputs
as given, append it, and bump the running aggregates. Returns the new
tracker state and the record, like the Python method returns the usage. -/
def add_usage (t : CostTracker) (prompt_tokens completion_tokens : ℤ)
    (model : String) : CostTracker × TokenUsage :=
  let usage : TokenUsage := ⟨prompt_tokens, completion_tokens,
    prompt_tokens + completion_tokens, model⟩
  (⟨t.usage_history ++ [usage],
    t.total_prompt_tokens + prompt_tokens,
    t.total_completion_tokens + completion_tokens,
    t.total_cost + cost_estimate usage⟩, usage)

/-- Python round to integer: nearest, ties to even. -/
def roundHalfEven (q : ℚ) : ℤ :=
  let f := Int.floor q
  let r := q - f
  if r < 1/2 then f
  else if 1/2 < r then f + 1
  else if f % 2 = 0 then f else f + 1

/-- Python round(q, nd). -/
def pyRound (q : ℚ) (nd : ℕ) : ℚ :=
  (roundHalfEven (q * 10 ^ nd) : ℚ) / 10 ^ nd

/-- The dictionary produced by CostTracker.get_summary (lines 158-179). -/
structure Summary where
  total_requests : ℕ
  total_tokens : ℤ
  prompt_tokens : ℤ
  completion_tokens : ℤ
  estimated_cost_usd : ℚ
  average_tokens_per_request : ℚ
  average_cost_per_request : ℚ
deriving DecidableEq

/-- CostTracker.get_summary: the displayed cost and averages are rounded,
the token totals are not; averages are 0 when no request was tracked. -/
def get_summary (t : CostTracker) : Summary :=
  { total_requests := t.usage_history.length
    total_tokens := t.total_prompt_tokens + t.total_completion_tokens
    prompt_tokens := t.total_prompt_tokens
    completion_tokens := t.total_completion_tokens
    estimated_cost_usd := pyRound t.total_cost 4
    average_tokens_per_request :=
      if 0 < t.usage_history.length then
        pyRound (((t.total_prompt_tokens + t.total_completion_tokens : ℤ) : ℚ)
          / (t.usage_history.length : ℚ)) 2
      else 0
    average_cost_per_request :=
      if 0 < t.usage_history.length then
        pyRound (t.total_cost / (t.usage_history.length : ℚ)) 4
      else 0 }

/-- A sequence of add_usage operations folded through one tracker. -/
def runAdds (ops : List (ℤ × ℤ × String)) (t : CostTracker) : CostTracker :=
  ops.foldl (fun st o => (add_usage st o.1 o.2.1 o.2.2).1) t

/-- The aggregate invariant of the ledger: running totals equal the fold
over the stored record sequence. -/
def trackerInv (t : CostTracker) : Prop :=
  t.total_prompt_tokens = (t.usage_history.map TokenUsage.prompt_tokens).sum
  ∧ t.total_completion_tokens = (t.usage_history.map TokenUsage.completion_tokens).sum
  ∧ t.total_cost = (t.usage_history.map cost_estimate).sum

example : safe_generate (Except.ok "hi") none = (some "hi", none) := by decide
example : nonRetryableMsg "Error 401: Invalid API Key" = true := by decide
example : nonRetryableMsg "rate limit 429" = false := by decide
example :
    (CircuitBreaker.call 1 1 0 (Outcome.err true : Outcome Unit) CircuitBreaker.init).1
      = ⟨1, some 0, "OPEN"⟩ := by decide
example :
    (CircuitBreaker.call 1 1 2 (Outcome.err false : Outcome Unit) ⟨1, some 0, "OPEN"⟩).1
      = ⟨1, some 0, "HALF_OPEN"⟩ := by
  norm_num [CircuitBreaker.call, CircuitBreaker.runInner]
example :
    handle_safety_block ⟨none, some [⟨some "SAFETY", none⟩]⟩
      = (true, some "Content blocked. Safety ratings: []") := by decide

/- Unfolding lemmas for one loop iteration of retryGo. -/

theorem delayMap_shift (D : ℕ → ℚ) (a k : ℕ) :
    D a :: (List.range k).map (fun i => D (a + 1 + i))
      = (List.range (k + 1)).map (fun i => D (a + i)) := by
  rw [List.range_succ_eq_map]
  rw [List.map_cons, List.map_map]
  rw [Nat.add_zero]
  refine congrArg (fun l => D a :: l) ?_
  refine List.map_congr_left fun i _ => ?_
  simp only [Function.comp_apply]
  congr 1
  omega

theorem retryGo_ok (op : ℕ → Except String α) (b M e : ℚ) (j : Bool) (jf : ℕ → ℚ)
    (a r : ℕ) (v : α) (h : op a = Except.ok v) :
    retryGo op b M e j jf a r = ⟨Except.ok v, [], 1⟩ := by
  rw [retryGo, h]

theorem retryGo_nonretryable (op : ℕ → Except String α) (b M e : ℚ) (j : Bool)
    (jf : ℕ → ℚ) (a r : ℕ) (m : String) (h : op a = Except.error m)
    (hm : nonRetryableMsg m = true) :
    retryGo op b M e j jf a r = ⟨Except.error m, [], 1⟩ := by
  rw [retryGo, h]
  simp [hm]

theorem retryGo_retry_zero (op : ℕ → Except String α) (b M e : ℚ) (j : Bool)
    (jf : ℕ → ℚ) (a : ℕ) (m : String) (h : op a = Except.error m)
    (hm : nonRetryableMsg m = false) :
    retryGo op b M e j jf a 0 = ⟨Except.error m, [], 1⟩ := by
  rw [retryGo, h]
  simp [hm]

theorem retryGo_retry_succ (op : ℕ → Except String α) (b M e : ℚ) (j : Bool)
    (jf : ℕ → ℚ) (a r : ℕ) (m : String) (h : op a = Except.error m)
    (hm : nonRetryableMsg m = false) :
    retryGo op b M e j jf a (r + 1) =
      ⟨(retryGo op b M e j jf (a + 1) r).result,
        (if j then backoffDelay b e M a * jf a else backoffDelay b e M a)
          :: (retryGo op b M e j jf (a + 1) r).delays,
        (retryGo op b M e j jf (a + 1) r).calls + 1⟩ := by
  rw [retryGo, h]
  simp [hm, backoffDelay]

/-- The retry loop started at attempt a with r attempts left: k retryable
failures followed by a success on attempt a+k return the success value
after exactly the k recorded sleeps and k+1 invocations. -/
theorem retryGo_succ_after_fails (op : ℕ → Except String α) (b M e : ℚ) (j : Bool)
    (jf : ℕ → ℚ) :
    ∀ (k a r : ℕ) (v : α), k ≤ r → op (a + k) = Except.ok v →
    (∀ i, i < k → ∃ m, op (a + i) = Except.error m ∧ nonRetryableMsg m = false) →
    retryGo op b M e j jf a r =
      ⟨Except.ok v,
        (List.range k).map
          (fun i => if j then backoffDelay b e M (a + i) * jf (a + i)
            else backoffDelay b e M (a + i)),
        k + 1⟩ := by
  intro k
  induction k with
  | zero =>
    intro a r v _ hv _
    simpa using retryGo_ok op b M e j jf a r v (by simpa using hv)
  | succ k ih =>
    intro a r v hk hv hf
    obtain ⟨m, hm, hnr⟩ := hf 0 (Nat.succ_pos k)
    match r, hk with
    | r + 1, hk =>
      rw [retryGo_retry_succ op b M e j jf a r m (by simpa using hm) hnr]
      rw [ih (a + 1) r v (by omega) (by rw [show a + 1 + k = a + (k + 1) by omega]; exact hv)
        (fun i hi => by
          obtain ⟨m2, hm2, hnr2⟩ := hf (i + 1) (by omega)
          exact ⟨m2, by rw [show a + 1 + i = a + (i + 1) by omega]; exact hm2, hnr2⟩)]
      refine congrArg (fun l => RetryTrace.mk (Except.ok v) l (k + 1 + 1)) ?_
      exact delayMap_shift
        (fun x => if j then backoffDelay b e M x * jf x else backoffDelay b e M x) a k

/-- The retry loop started at attempt a with r attempts left: when every
attempt fails with a retryable error, the loop sleeps after each of the
first r attempts and propagates the error of the final attempt a+r. -/
theorem retryGo_all_fail (op : ℕ → Except String α) (b M e : ℚ) (j : Bool)
    (jf : ℕ → ℚ) :
    ∀ (r a : ℕ),
    (∀ i, i ≤ r → ∃ m, op (a + i) = Except.error m ∧ nonRetryableMsg m = false) →
    ∃ m, op (a + r) = Except.error m ∧
      retryGo op b M e j jf a r =
        ⟨Except.error m,
          (List.range r).map
            (fun i => if j then backoffDelay b e M (a + i) * jf (a + i)
              else backoffDelay b e M (a + i)),
          r + 1⟩ := by
  intro r
  induction r with
  | zero =>
    intro a hf
    obtain ⟨m, hm, hnr⟩ := hf 0 (le_refl 0)
    exact ⟨m, hm, by simpa using retryGo_retry_zero op b M e j jf a m (by simpa using hm) hnr⟩
  | succ r ih =>
    intro a hf
    obtain ⟨m0, hm0, hnr0⟩ := hf 0 (Nat.zero_le _)
    obtain ⟨m, hm, hgo⟩ := ih (a + 1) (fun i hi => by
      obtain ⟨m2, hm2, hnr2⟩ := hf (i + 1) (by omega)
      exact ⟨m2, by rw [show a + 1 + i = a + (i + 1) by omega]; exact hm2, hnr2⟩)
    refine ⟨m, by rw [show a + (r + 1) = a + 1 + r by omega]; exact hm, ?_⟩
    rw [retryGo_retry_succ op b M e j jf a r m0 (by simpa using hm0) hnr0, hgo]
    refine congrArg (fun l => RetryTrace.mk (Except.error m) l (r + 1 + 1)) ?_
    exact delayMap_shift
      (fun x => if j then backoffDelay b e M x * jf x else backoffDelay b e M x) a r

/-- Claim C3: with policy max_retries, an operation that fails with
retryable errors on its first k attempts (k below the attempt budget) and
succeeds on attempt k returns the success value after exactly k waits; an
operation that fails with a retryable error on every attempt performs
exactly max_retries waits and then propagates the error observed on the
final attempt. -/
theorem retry_wait_counts {α : Type} (op : ℕ → Except String α) (max_retries : ℕ)
    (b M e : ℚ) (j : Bool) (jf : ℕ → ℚ) :
    (∀ k v, k ≤ max_retries → op k = Except.ok v →
      (∀ i, i < k → ∃ m, op i = Except.error m ∧ nonRetryableMsg m = false) →
      (retry_with_exponential_backoff op max_retries b M e j jf).result = Except.ok v ∧
      (retry_with_exponential_backoff op max_retries b M e j jf).delays.length = k) ∧
    ((∀ i, i ≤ max_retries → ∃ m, op i = Except.error m ∧ nonRetryableMsg m = false) →
      ∀ m, op max_retries = Except.error m →
      (retry_with_exponential_backoff op max_retries b M e j jf).result = Except.error m ∧
      (retry_with_exponential_backoff op max_retries b M e j jf).delays.length = max_retries) := by
  constructor
  · intro k v hk hv hf
    rw [retry_with_exponential_backoff,
      retryGo_succ_after_fails op b M e j jf k 0 max_retries v hk (by simpa using hv)
        (fun i hi => by simpa using hf i hi)]
    simp
  · intro hf m hm
    obtain ⟨m2, hm2, hgo⟩ :=
      retryGo_all_fail op b M e j jf max_retries 0 (fun i hi => by simpa using hf i hi)
    have hmm : m2 = m := by
      rw [show (0 : ℕ) + max_retries = max_retries by omega, hm] at hm2
      exact (Except.error.injEq m2 m).mp hm2.symm
    subst hmm
    rw [retry_with_exponential_backoff, hgo]
    simp

/-- Witness for retry_wait_counts: a concrete operation that fails once
with a 503 and then returns 42, and one that always fails with a 503. -/
theorem retry_wait_counts_witness :
    ((retry_with_exponential_backoff
        (fun i => if i < 1 then Except.error "503" else Except.ok 42)
        3 1 60 2 false (fun _ => 1)).result = Except.ok 42 ∧
      (retry_with_exponential_backoff
        (fun i => if i < 1 then Except.error "503" else Except.ok 42)
        3 1 60 2 false (fun _ => 1)).delays.length = 1) ∧
    ((retry_with_exponential_backoff (fun _ => (Except.error "503" : Except String ℕ))
        3 1 60 2 false (fun _ => 1)).result = Except.error "503" ∧
      (retry_with_exponential_backoff (fun _ => (Except.error "503" : Except String ℕ))
        3 1 60 2 false (fun _ => 1)).delays.length = 3) :=
  ⟨(retry_wait_counts (fun i => if i < 1 then Except.error "503" else Except.ok 42)
      3 1 60 2 false (fun _ => 1)).1 1 42 (by decide) rfl
      (fun i hi => ⟨"503", by
        have h0 : i = 0 := Nat.lt_one_iff.mp hi
        rw [h0]
        rfl, by decide⟩),
   (retry_wait_counts (fun _ => (Except.error "503" : Except String ℕ))
      3 1 60 2 false (fun _ => 1)).2 (fun i _ => ⟨"503", rfl, by decide⟩) "503" rfl⟩

/-- Claim C4: a first attempt failing with an error matched by the
non-retryable predicate (authentication, permission, not-found markers) is
propagated immediately: the operation runs exactly once and no wait is
performed. -/
theorem nonretryable_propagates_immediately {α : Type} (op : ℕ → Except String α)
    (max_retries : ℕ) (b M e : ℚ) (j : Bool) (jf : ℕ → ℚ) (m : String)
    (h0 : op 0 = Except.error m) (hnr : nonRetryableMsg m = true) :
    retry_with_exponential_backoff op max_retries b M e j jf
      = ⟨Except.error m, [], 1⟩ := by
  rw [retry_with_exponential_backoff]
  exact retryGo_nonretryable op b M e j jf 0 max_retries m h0 hnr

/-- Witness for nonretryable_propagates_immediately at a concrete 401. -/
theorem nonretryable_propagates_immediately_witness :
    retry_with_exponential_backoff
        (fun _ => (Except.error "Invalid API key (401)" : Except String ℕ))
        3 1 60 2 true (fun _ => 1)
      = ⟨Except.error "Invalid API key (401)", [], 1⟩ :=
  nonretryable_propagates_immediately
    (fun _ => (Except.error "Invalid API key (401)" : Except String ℕ))
    3 1 60 2 true (fun _ => 1) "Invalid API key (401)" rfl (by decide)

/-- Claim C5 counterexample: with base_delay 1, exponential_base 1/2 and
max_delay 60 (jitter disabled), the delay of attempt 1 is strictly below
the delay of attempt 0, so the backoff delay is not monotonically
non-decreasing for every policy. -/
theorem backoff_not_monotone_counterexample :
    ¬ (backoffDelay 1 (1/2) 60 0 ≤ backoffDelay 1 (1/2) 60 1) := by
  simp only [backoffDelay]
  rw [min_eq_left (by norm_num), min_eq_left (by norm_num)]
  norm_num

/-- Claim C5 (amended): for every jitter-disabled policy the executor
sleeps, on an always-retryable-failing operation, exactly the delays
min(base_delay * exponential_base ^ i, max_delay) for i below max_retries;
and whenever base_delay is at least 0 and exponential_base at least 1 that
delay is monotonically non-decreasing in the attempt index. -/
theorem backoff_delay_formula_monotone (b M e : ℚ)
    (max_retries : ℕ) (jf : ℕ → ℚ) (op : ℕ → Except String Unit)
    (hop : ∀ i, ∃ m, op i = Except.error m ∧ nonRetryableMsg m = false) :
    (retry_with_exponential_backoff op max_retries b M e false jf).delays
        = (List.range max_retries).map (backoffDelay b e M) ∧
    (0 ≤ b → 1 ≤ e →
      ∀ i, backoffDelay b e M i ≤ backoffDelay b e M (i + 1)) := by
  constructor
  · obtain ⟨m, _, hgo⟩ :=
      retryGo_all_fail op b M e false jf max_retries 0 (fun i _ => hop (0 + i))
    rw [retry_with_exponential_backoff, hgo]
    simp
  · intro hb he i
    refine min_le_min ?_ (le_refl M)
    exact mul_le_mul_of_nonneg_left (pow_le_pow_right₀ he (Nat.le_succ i)) hb

/-- Witness for backoff_delay_formula_monotone with the default-shaped
policy base 1, exponential base 2, cap 60, two retries. -/
theorem backoff_delay_formula_monotone_witness :
    (retry_with_exponential_backoff (fun _ => (Except.error "503" : Except String Unit))
        2 1 60 2 false (fun _ => 1)).delays
        = (List.range 2).map (backoffDelay 1 2 60) ∧
    backoffDelay 1 2 60 0 ≤ backoffDelay 1 2 60 1 :=
  ⟨(backoff_delay_formula_monotone 1 60 2 2 (fun _ => 1)
      (fun _ => (Except.error "503" : Except String Unit))
      (fun _ => ⟨"503", rfl, by decide⟩)).1,
   (backoff_delay_formula_monotone 1 60 2 2 (fun _ => 1)
      (fun _ => (Except.error "503" : Except String Unit))
      (fun _ => ⟨"503", rfl, by decide⟩)).2 (by norm_num) (by norm_num) 0⟩

/-- Claim C9 counterexample: the empty string is a non-null fallback, yet
on failure safe_generate returns (none, error) instead of substituting it,
because the code tests Python truthiness rather than is-not-None. -/
theorem safe_generate_empty_fallback_counterexample :
    safe_generate (Except.error "boom") (some "") = (none, some "boom")
      ∧ (some "" : Option String) ≠ none :=
  ⟨rfl, by decide⟩

/-- Claim C9 (amended): for every non-null, non-empty fallback value the
adapter returns a (result, error) pair and never propagates: on success the
pair is (the result, none); on failure it is (the fallback, the error). -/
theorem safe_generate_result_error_pair (fb : String) (hfb : fb ≠ "") :
    (∀ r, safe_generate (Except.ok r) (some fb) = (some r, none)) ∧
    (∀ e, safe_generate (Except.error e) (some fb) = (some fb, some e)) := by
  constructor
  · intro r
    rfl
  · intro e
    simp [safe_generate, hfb]

/-- Witness for safe_generate_result_error_pair at a concrete fallback. -/
theorem safe_generate_result_error_pair_witness :
    safe_generate (Except.ok "hello") (some "fallback") = (some "hello", none) ∧
    safe_generate (Except.error "boom") (some "fallback") = (some "fallback", some "boom") :=
  ⟨(safe_generate_result_error_pair "fallback" (by decide)).1 "hello",
   (safe_generate_result_error_pair "fallback" (by decide)).2 "boom"⟩

/- Ledger invariant lemmas for the cost tracker. -/

theorem trackerInv_init : trackerInv CostTracker.init := by
  refine ⟨rfl, rfl, rfl⟩

theorem trackerInv_add (t : CostTracker) (p c : ℤ) (m : String)
    (h : trackerInv t) : trackerInv (add_usage t p c m).1 := by
  obtain ⟨h1, h2, h3⟩ := h
  refine ⟨?_, ?_, ?_⟩ <;>
    simp [add_usage, trackerInv, h1, h2, h3]

theorem trackerInv_runAdds (ops : List (ℤ × ℤ × String)) :
    ∀ t : CostTracker, trackerInv t → trackerInv (runAdds ops t) := by
  induction ops with
  | nil => intro t h; simpa [runAdds] using h
  | cons o ops ih =>
    intro t h
    rw [runAdds, List.foldl_cons]
    exact ih _ (trackerInv_add t o.1 o.2.1 o.2.2 h)

/-- Claim C6 counterexample: one recorded gemini-2.5-flash request with
1000 prompt and 1000 completion tokens costs 3/32000 = 0.00009375, but the
summary reports that total rounded to 4 decimal places (1/10000), so the
cost displayed by summary() differs from the fold of per-record costs. -/
theorem summary_cost_rounding_counterexample :
    (get_summary ((add_usage CostTracker.init 1000 1000 "gemini-2.5-flash").1)).estimated_cost_usd
      ≠ (((add_usage CostTracker.init 1000 1000 "gemini-2.5-flash").1).usage_history.map
          cost_estimate).sum := by
  have hcost : cost_estimate ⟨1000, 1000, 2000, "gemini-2.5-flash"⟩ = 3/32000 := by
    rw [show cost_estimate ⟨1000, 1000, 2000, "gemini-2.5-flash"⟩
        = ((1000:ℤ):ℚ)/1000 * 0.00001875 + ((1000:ℤ):ℚ)/1000 * 0.000075 from rfl]
    norm_num
  have hL : (get_summary ((add_usage CostTracker.init 1000 1000 "gemini-2.5-flash").1)).estimated_cost_usd
      = pyRound (0 + cost_estimate ⟨1000, 1000, 2000, "gemini-2.5-flash"⟩) 4 := rfl
  have hR : (((add_usage CostTracker.init 1000 1000 "gemini-2.5-flash").1).usage_history.map
      cost_estimate).sum = cost_estimate ⟨1000, 1000, 2000, "gemini-2.5-flash"⟩ + 0 := rfl
  rw [hL, hR, hcost]
  rw [pyRound, roundHalfEven]
  norm_num

/-- Claim C6 (amended): for every sequence of record operations the token
aggregates equal the fold over the stored records, and the running total
cost equals the fold of per-record computed costs; the cost reported by
get_summary is that fold rounded to 4 decimal places, not the raw fold. -/
theorem tracker_aggregates_are_fold (ops : List (ℤ × ℤ × String)) :
    (get_summary (runAdds ops CostTracker.init)).total_tokens
        = ((runAdds ops CostTracker.init).usage_history.map TokenUsage.prompt_tokens).sum
          + ((runAdds ops CostTracker.init).usage_history.map TokenUsage.completion_tokens).sum
    ∧ (runAdds ops CostTracker.init).total_cost
        = ((runAdds ops CostTracker.init).usage_history.map cost_estimate).sum
    ∧ (get_summary (runAdds ops CostTracker.init)).estimated_cost_usd
        = pyRound (((runAdds ops CostTracker.init).usage_history.map cost_estimate).sum) 4 := by
  obtain ⟨h1, h2, h3⟩ := trackerInv_runAdds ops CostTracker.init trackerInv_init
  refine ⟨?_, h3, ?_⟩
  · show (runAdds ops CostTracker.init).total_prompt_tokens
        + (runAdds ops CostTracker.init).total_completion_tokens = _
    rw [h1, h2]
  · show pyRound (runAdds ops CostTracker.init).total_cost 4 = _
    rw [h3]

/-- Claim C7 counterexample: add_usage called with prompt_tokens -5 appends
a record whose prompt_token count is -5, not the claimed clamped value 0. -/
theorem add_usage_negative_not_clamped :
    ((add_usage CostTracker.init (-5) 3 "gemini-pro").1).usage_history.map
        TokenUsage.prompt_tokens = [(-5 : ℤ)]
      ∧ ¬ ((0:ℤ) ≤ -5) :=
  ⟨rfl, by decide⟩

/-- Claim C7 (amended): add_usage never fails and appends the record built
from the token counts exactly as supplied, negative values included; no
clamping is applied. -/
theorem add_usage_appends_given_values (t : CostTracker) (p c : ℤ) (m : String) :
    (add_usage t p c m).1.usage_history = t.usage_history ++ [⟨p, c, p + c, m⟩]
      ∧ (add_usage t p c m).2 = ⟨p, c, p + c, m⟩ :=
  ⟨rfl, rfl⟩

/- Substring closure lemmas used for the safety-block reason string. -/

theorem listLE_append (n : List Char) :
    ∀ (h t : List Char), listLE n h = true → listLE n (h ++ t) = true := by
  induction n with
  | nil =>
    intro h t _
    rfl
  | cons a as ih =>
    intro h t hle
    cases h with
    | nil => simp [listLE] at hle
    | cons b bs =>
      simp only [List.cons_append, listLE, Bool.and_eq_true] at hle ⊢
      exact ⟨hle.1, ih bs t hle.2⟩

theorem listSub_append (n : List Char) :
    ∀ (h t : List Char), listSub n h = true → listSub n (h ++ t) = true := by
  intro h
  induction h with
  | nil =>
    intro t hs
    cases n with
    | nil =>
      cases t with
      | nil => rfl
      | cons c cs => simp [listSub, listLE]
    | cons a as => simp [listSub, listLE] at hs
  | cons b bs ih =>
    intro t hs
    rw [listSub, Bool.or_eq_true] at hs
    rw [List.cons_append, listSub, Bool.or_eq_true]
    cases hs with
    | inl hle =>
      left
      have := listLE_append n (b :: bs) t hle
      simpa [List.cons_append] using this
    | inr hsub => exact Or.inr (ih t hsub)

theorem strContains_append (a b needle : String)
    (h : strContains a needle = true) :
    strContains (a ++ b) needle = true := by
  rw [strContains] at h ⊢
  rw [String.data_append]
  exact listSub_append needle.data a.data b.data h

/-- Claim C8 counterexample: a first candidate with finish_reason SAFETY
and no ratings yields the reason string of the f-string on line 155, which
contains the word Safety but not the uppercase substring SAFETY. -/
theorem safety_reason_case_counterexample :
    handle_safety_block ⟨none, some [⟨some "SAFETY", none⟩]⟩
        = (true, some "Content blocked. Safety ratings: []")
      ∧ strContains "Content blocked. Safety ratings: []" "SAFETY" = false :=
  ⟨by decide, by decide⟩

/-- Claim C8 (amended): a response without request-level block reason whose
first candidate has finish_reason SAFETY is reported blocked with a reason
containing the substring Safety (case as produced by the code); a response
with neither prompt_feedback nor candidates is reported (false, none). -/
theorem safety_block_detection :
    (∀ (r : GResponse) (c : Candidate) (rest : List Candidate),
      r.prompt_feedback.bind PromptFeedback.block_reason = none →
      r.candidates = some (c :: rest) →
      c.finish_reason = some "SAFETY" →
      (handle_safety_block r).1 = true
        ∧ (handle_safety_block r).2
            = some ("Content blocked. Safety ratings: "
                ++ reprRatings (c.safety_ratings.getD []))
        ∧ strContains ("Content blocked. Safety ratings: "
            ++ reprRatings (c.safety_ratings.getD [])) "Safety" = true) ∧
    (∀ r : GResponse, r.prompt_feedback = none → r.candidates = none →
      handle_safety_block r = (false, none)) := by
  constructor
  · intro r c rest hfb hc hfr
    have hblock : handle_safety_block r
        = (true, some ("Content blocked. Safety ratings: "
            ++ reprRatings (c.safety_ratings.getD []))) := by
      rw [handle_safety_block, hfb, hc]
      simp [hfr]
    refine ⟨by rw [hblock], by rw [hblock], ?_⟩
    exact strContains_append "Content blocked. Safety ratings: "
      (reprRatings (c.safety_ratings.getD [])) "Safety" (by decide)
  · intro r h1 h2
    rw [handle_safety_block, h1, h2]
    rfl

/-- Witness for safety_block_detection at a concrete blocked response and
a concrete empty response. -/
theorem safety_block_detection_witness :
    ((handle_safety_block ⟨none, some [⟨some "SAFETY", some ["r1"]⟩]⟩).1 = true
      ∧ (handle_safety_block ⟨none, some [⟨some "SAFETY", some ["r1"]⟩]⟩).2
          = some ("Content blocked. Safety ratings: "
              ++ reprRatings ((some ["r1"] : Option (List String)).getD []))
      ∧ strContains ("Content blocked. Safety ratings: "
          ++ reprRatings ((some ["r1"] : Option (List String)).getD [])) "Safety" = true)
    ∧ handle_safety_block ⟨none, none⟩ = (false, none) :=
  ⟨safety_block_detection.1 ⟨none, some [⟨some "SAFETY", some ["r1"]⟩]⟩
      ⟨some "SAFETY", some ["r1"]⟩ [] rfl rfl rfl,
   safety_block_detection.2 ⟨none, none⟩ rfl rfl⟩

/- Step lemmas for the circuit breaker wrapper. -/

theorem run_nil (ft : ℕ) (tmo : ℚ) (s : CircuitBreaker) :
    CircuitBreaker.run ft tmo [] s = s := rfl

theorem run_cons (ft : ℕ) (tmo : ℚ) (e : ℚ × Outcome Unit) (es : List (ℚ × Outcome Unit))
    (s : CircuitBreaker) :
    CircuitBreaker.run ft tmo (e :: es) s
      = CircuitBreaker.run ft tmo es (CircuitBreaker.call ft tmo e.1 e.2 s).1 := rfl

theorem run_append (ft : ℕ) (tmo : ℚ) (a b : List (ℚ × Outcome Unit)) (s : CircuitBreaker) :
    CircuitBreaker.run ft tmo (a ++ b) s
      = CircuitBreaker.run ft tmo b (CircuitBreaker.run ft tmo a s) := by
  rw [CircuitBreaker.run, CircuitBreaker.run, CircuitBreaker.run, List.foldl_append]

theorem call_open_rejected {α : Type} (ft : ℕ) (tmo now : ℚ) (inner : Outcome α)
    (s : CircuitBreaker) (hs : s.state = "OPEN")
    (h : ¬ (now - s.last_failure_time.getD 0 > tmo)) :
    CircuitBreaker.call ft tmo now inner s = (s, CallResult.circuitOpenError, false) := by
  rw [CircuitBreaker.call, if_pos hs, if_neg h]

theorem call_closed_fail_below (ft : ℕ) (tmo now : ℚ) (c : ℕ) (lft : Option ℚ)
    (h : ¬ ft ≤ c + 1) :
    CircuitBreaker.call ft tmo now (Outcome.err true : Outcome Unit) ⟨c, lft, "CLOSED"⟩
      = (⟨c + 1, some now, "CLOSED"⟩, CallResult.propagated true, true) := by
  rw [CircuitBreaker.call,
    if_neg (show ¬ ((⟨c, lft, "CLOSED"⟩ : CircuitBreaker).state = "OPEN") by simp)]
  simp only [CircuitBreaker.runInner]
  rw [if_neg h]

theorem call_closed_fail_reach (ft : ℕ) (tmo now : ℚ) (c : ℕ) (lft : Option ℚ)
    (h : ft ≤ c + 1) :
    CircuitBreaker.call ft tmo now (Outcome.err true : Outcome Unit) ⟨c, lft, "CLOSED"⟩
      = (⟨c + 1, some now, "OPEN"⟩, CallResult.propagated true, true) := by
  rw [CircuitBreaker.call,
    if_neg (show ¬ ((⟨c, lft, "CLOSED"⟩ : CircuitBreaker).state = "OPEN") by simp)]
  simp only [CircuitBreaker.runInner]
  rw [if_pos h]

/-- Consecutive matching failures below the threshold leave the breaker
CLOSED, counting each failure and tracking the last failure instant. -/
theorem run_fails_stays_closed (ft : ℕ) (tmo : ℚ) :
    ∀ (ts : List ℚ) (c : ℕ) (lft : Option ℚ), c + ts.length < ft →
    CircuitBreaker.run ft tmo (ts.map fun t => (t, (Outcome.err true : Outcome Unit)))
        ⟨c, lft, "CLOSED"⟩
      = ⟨c + ts.length, (ts.getLast?).or lft, "CLOSED"⟩ := by
  intro ts
  induction ts with
  | nil =>
    intro c lft _
    simp [run_nil]
  | cons t ts ih =>
    intro c lft h
    rw [List.map_cons, run_cons]
    simp only []
    rw [call_closed_fail_below ft tmo t c lft (by simp at h; omega)]
    rw [ih (c + 1) (some t) (by simp at h ⊢; omega)]
    have hlen : c + 1 + ts.length = c + (t :: ts).length := by simp; omega
    have htime : (ts.getLast?).or (some t) = ((t :: ts).getLast?).or lft := by
      cases ts with
      | nil => rfl
      | cons b bs =>
        rw [List.getLast?_cons_cons]
        cases hg : (b :: bs).getLast? with
        | none => exact absurd (List.getLast?_eq_none_iff.mp hg) (by simp)
        | some x => rfl
    rw [hlen, htime]

/-- Claim C1: with failure_threshold n, after exactly n consecutive calls
whose inner operation raises a matching exception (from the initial Closed
state, failure times ts then tn), the breaker state is OPEN, and a further
call before the timeout has elapsed is rejected with the circuit-open
error without invoking the inner operation, whatever that operation would
have done. -/
theorem circuit_opens_after_threshold_failures (n : ℕ) (tmo : ℚ) (ts : List ℚ) (tn : ℚ)
    (hlen : ts.length + 1 = n) (now : ℚ) (hnow : now - tn < tmo) (inner : Outcome Unit) :
    (CircuitBreaker.run n tmo ((ts ++ [tn]).map fun t => (t, (Outcome.err true : Outcome Unit)))
        CircuitBreaker.init).state = "OPEN"
    ∧ CircuitBreaker.call n tmo now inner
        (CircuitBreaker.run n tmo ((ts ++ [tn]).map fun t => (t, (Outcome.err true : Outcome Unit)))
          CircuitBreaker.init)
      = (CircuitBreaker.run n tmo ((ts ++ [tn]).map fun t => (t, (Outcome.err true : Outcome Unit)))
          CircuitBreaker.init, CallResult.circuitOpenError, false) := by
  have hrun : CircuitBreaker.run n tmo
      ((ts ++ [tn]).map fun t => (t, (Outcome.err true : Outcome Unit))) CircuitBreaker.init
      = ⟨n, some tn, "OPEN"⟩ := by
    rw [List.map_append, run_append]
    rw [show CircuitBreaker.init = (⟨0, none, "CLOSED"⟩ : CircuitBreaker) from rfl]
    rw [run_fails_stays_closed n tmo ts 0 none (by omega)]
    rw [List.map_singleton, run_cons, run_nil]
    simp only []
    rw [call_closed_fail_reach n tmo tn (0 + ts.length) ((ts.getLast?).or none) (by omega)]
    have : 0 + ts.length + 1 = n := by omega
    rw [this]
  refine ⟨by rw [hrun], ?_⟩
  rw [hrun]
  exact call_open_rejected n tmo now inner ⟨n, some tn, "OPEN"⟩ rfl
    (by simp only [Option.getD_some]; linarith)

/-- Witness for circuit_opens_after_threshold_failures: threshold 2,
failures at instants 0 and 1, probe at instant 30 with timeout 60. -/
theorem circuit_opens_after_threshold_failures_witness :
    (CircuitBreaker.run 2 60 (([(0:ℚ)] ++ [1]).map fun t => (t, (Outcome.err true : Outcome Unit)))
        CircuitBreaker.init).state = "OPEN"
    ∧ CircuitBreaker.call 2 60 30 (Outcome.ok ())
        (CircuitBreaker.run 2 60 (([(0:ℚ)] ++ [1]).map fun t => (t, (Outcome.err true : Outcome Unit)))
          CircuitBreaker.init)
      = (CircuitBreaker.run 2 60 (([(0:ℚ)] ++ [1]).map fun t => (t, (Outcome.err true : Outcome Unit)))
          CircuitBreaker.init, CallResult.circuitOpenError, false) :=
  circuit_opens_after_threshold_failures 2 60 [0] 1 rfl 30 (by norm_num) (Outcome.ok ())

/-- Claim C2 counterexample: with timeout 60 and last failure at instant 0,
a call at instant 60 has elapsed time exactly equal to the timeout, yet it
is rejected without invoking the inner operation, because line 190 compares
with strict greater-than; the claim predicts a HalfOpen transition with an
invocation whenever elapsed time is at least the timeout. -/
theorem open_at_exact_timeout_rejected :
    CircuitBreaker.call 1 60 60 (Outcome.ok ()) ⟨1, some 0, "OPEN"⟩
        = (⟨1, some 0, "OPEN"⟩, CallResult.circuitOpenError, false)
      ∧ (60 : ℚ) - 0 ≥ 60 :=
  ⟨call_open_rejected 1 60 60 (Outcome.ok ()) ⟨1, some 0, "OPEN"⟩ rfl
      (by simp only [Option.getD_some]; norm_num),
   by norm_num⟩

/-- Claim C2 (amended): for a breaker in the OPEN state, a call whose
elapsed time since the last failure strictly exceeds the timeout moves the
state to HALF_OPEN and does invoke the inner operation: a success resets
failure_count to 0 with state CLOSED, and a non-matching inner exception
leaves the breaker in the HALF_OPEN state it just entered. -/
theorem open_strict_elapsed_halfopen {α : Type} (ft : ℕ) (tmo now tl : ℚ) (c : ℕ) (a : α)
    (h : tmo < now - tl) :
    CircuitBreaker.call ft tmo now (Outcome.ok a) ⟨c, some tl, "OPEN"⟩
        = (⟨0, some tl, "CLOSED"⟩, CallResult.success a, true)
    ∧ CircuitBreaker.call ft tmo now (Outcome.err false : Outcome α) ⟨c, some tl, "OPEN"⟩
        = (⟨c, some tl, "HALF_OPEN"⟩, CallResult.propagated false, true) := by
  have hcond : now - (⟨c, some tl, "OPEN"⟩ : CircuitBreaker).last_failure_time.getD 0 > tmo := by
    simpa using h
  constructor
  · rw [CircuitBreaker.call, if_pos rfl, if_pos hcond]
    simp [CircuitBreaker.runInner]
  · rw [CircuitBreaker.call, if_pos rfl, if_pos hcond]
    simp [CircuitBreaker.runInner]

/-- Witness for open_strict_elapsed_halfopen: timeout 60, last failure at
instant 0, call at instant 61, threshold and count 5. -/
theorem open_strict_elapsed_halfopen_witness :
    CircuitBreaker.call 5 60 61 (Outcome.ok (7:ℕ)) ⟨5, some 0, "OPEN"⟩
        = (⟨0, some 0, "CLOSED"⟩, CallResult.success 7, true)
    ∧ CircuitBreaker.call 5 60 61 (Outcome.err false : Outcome ℕ) ⟨5, some 0, "OPEN"⟩
        = (⟨5, some 0, "HALF_OPEN"⟩, CallResult.propagated false, true) :=
  open_strict_elapsed_halfopen 5 60 61 0 5 7 (by norm_num)

/- The failure-count invariant of the breaker state machine. -/

theorem runInner_preserves (ft : ℕ) (now : ℚ) (inner : Outcome Unit) (s : CircuitBreaker)
    (hso : s.state ≠ "OPEN")
    (ih : s.state = "HALF_OPEN" → ft ≤ s.failure_count) :
    ((CircuitBreaker.runInner ft now inner s).1.state = "OPEN"
      ∨ (CircuitBreaker.runInner ft now inner s).1.state = "HALF_OPEN")
    → ft ≤ (CircuitBreaker.runInner ft now inner s).1.failure_count := by
  cases inner with
  | ok a =>
    by_cases hh : s.state = "HALF_OPEN"
    · simp [CircuitBreaker.runInner, hh]
    · simp only [CircuitBreaker.runInner, if_neg hh]
      intro hor
      cases hor with
      | inl h1 => exact absurd h1 hso
      | inr h2 => exact absurd h2 hh
  | err b =>
    cases b with
    | true =>
      simp only [CircuitBreaker.runInner]
      by_cases hft : ft ≤ s.failure_count + 1
      · rw [if_pos hft]
        intro _
        simpa using hft
      · rw [if_neg hft]
        intro hor
        cases hor with
        | inl h1 => exact absurd h1 hso
        | inr h2 =>
          have := ih h2
          omega
    | false =>
      simp only [CircuitBreaker.runInner]
      intro hor
      cases hor with
      | inl h1 => exact absurd h1 hso
      | inr h2 => exact ih h2

theorem call_preserves_count_invariant (ft : ℕ) (tmo : ℚ) (s : CircuitBreaker) (now : ℚ)
    (inner : Outcome Unit)
    (ih : s.state = "OPEN" ∨ s.state = "HALF_OPEN" → ft ≤ s.failure_count) :
    ((CircuitBreaker.call ft tmo now inner s).1.state = "OPEN"
      ∨ (CircuitBreaker.call ft tmo now inner s).1.state = "HALF_OPEN")
    → ft ≤ (CircuitBreaker.call ft tmo now inner s).1.failure_count := by
  rw [CircuitBreaker.call]
  by_cases hs : s.state = "OPEN"
  · rw [if_pos hs]
    by_cases ht : now - s.last_failure_time.getD 0 > tmo
    · rw [if_pos ht]
      exact runInner_preserves ft now inner { s with state := "HALF_OPEN" }
        (by simp) (fun _ => ih (Or.inl hs))
    · rw [if_neg ht]
      exact ih
  · rw [if_neg hs]
    exact runInner_preserves ft now inner s hs (fun hh => ih (Or.inr hh))

/-- Every state reachable from construction satisfies: OPEN or HALF_OPEN
implies the failure count has reached the threshold. -/
theorem reachable_open_count (ft : ℕ) (tmo : ℚ) (s : CircuitBreaker)
    (h : Reachable ft tmo s) :
    s.state = "OPEN" ∨ s.state = "HALF_OPEN" → ft ≤ s.failure_count := by
  induction h with
  | init =>
    intro hor
    cases hor with
    | inl h1 => simp [CircuitBreaker.init] at h1
    | inr h2 => simp [CircuitBreaker.init] at h2
  | step s now inner hr ih => exact call_preserves_count_invariant ft tmo s now inner ih

/-- Claim C10: in every reachable breaker state, HALF_OPEN implies the
failure count is at least the threshold (the count is not reset on the
OPEN-to-HALF_OPEN transition), so a single matching failure in HALF_OPEN
sends the breaker straight back to OPEN. -/
theorem halfopen_failure_count_invariant (ft : ℕ) (tmo : ℚ) (s : CircuitBreaker)
    (h : Reachable ft tmo s) (hs : s.state = "HALF_OPEN") :
    ft ≤ s.failure_count
    ∧ ∀ now : ℚ,
      ((CircuitBreaker.call ft tmo now (Outcome.err true : Outcome Unit) s).1).state
        = "OPEN" := by
  have hcount := reachable_open_count ft tmo s h (Or.inr hs)
  refine ⟨hcount, fun now => ?_⟩
  rw [CircuitBreaker.call, if_neg (by rw [hs]; decide)]
  simp only [CircuitBreaker.runInner]
  rw [if_pos (by omega : ft ≤ s.failure_count + 1)]

/-- Witness for halfopen_failure_count_invariant: the HALF_OPEN state with
count 1 reached with threshold 1 and timeout 1 by one matching failure at
instant 0 and a non-matching failure probe at instant 2. -/
theorem halfopen_failure_count_invariant_witness :
    (1 : ℕ) ≤ (⟨1, some 0, "HALF_OPEN"⟩ : CircuitBreaker).failure_count
    ∧ ((CircuitBreaker.call 1 1 5 (Outcome.err true : Outcome Unit)
        ⟨1, some 0, "HALF_OPEN"⟩).1).state = "OPEN" := by
  have hstep1 : (CircuitBreaker.call 1 1 0 (Outcome.err true : Outcome Unit)
      CircuitBreaker.init).1 = ⟨1, some 0, "OPEN"⟩ := by
    simp [CircuitBreaker.call, CircuitBreaker.runInner, CircuitBreaker.init]
  have hstep2 : (CircuitBreaker.call 1 1 2 (Outcome.err false : Outcome Unit)
      (⟨1, some 0, "OPEN"⟩ : CircuitBreaker)).1 = ⟨1, some 0, "HALF_OPEN"⟩ := by
    norm_num [CircuitBreaker.call, CircuitBreaker.runInner]
  have hr : Reachable 1 1 (⟨1, some 0, "HALF_OPEN"⟩ : CircuitBreaker) := by
    have h2 := Reachable.step _ 2 (Outcome.err false)
      (Reachable.step _ 0 (Outcome.err true)
        (Reachable.init : Reachable 1 1 CircuitBreaker.init))
    rw [hstep1] at h2
    rw [hstep2] at h2
    exact h2
  have h := halfopen_failure_count_invariant 1 1 ⟨1, some 0, "HALF_OPEN"⟩ hr rfl
  exact ⟨h.1, h.2 5⟩
